import Mathlib

/-!
Verification development for the omnichannel backend core:
shallow embedding of the semantic clustering engine
(`src/backend/semantic/clustering.py`), the session history store
(`src/backend/history/memory_store.py`), the ambiguity resolver
(`src/backend/elicitation/resolver.py`) and the context envelope
constructor (`src/backend/context/constructor.py`), together with
theorems settling the specification claims about them.

Semantic similarity is produced externally (sentence-transformer
embeddings plus cosine similarity); the embedding is abstracted as a
rational-valued function of the two texts involved, exactly the
composite the code computes.  All container/loop logic is translated
from the Python source.
-/

namespace Omni

/-- `gateway_output` sub-dictionary possibly carried in an item's
`original_data`; only its optional `raw_text` key is ever read. -/
structure GatewayOutput where
  raw_text : Option String
deriving DecidableEq, Repr

/-- The opaque `original_data` dictionary attached to an input item;
it may carry a `gateway_output` entry. -/
structure OriginalData where
  gateway_output : Option GatewayOutput
deriving DecidableEq, Repr

/-- `InputItem` from `semantic/clustering.py`. -/
structure InputItem where
  input_type : String
  normalized_text : String
  original_data : OriginalData
deriving DecidableEq, Repr

instance : Inhabited InputItem := ⟨⟨"", "", ⟨none⟩⟩⟩

/-- An item dictionary stored inside a cluster.  Keys may be absent in
historical data, hence the `Option` fields; the item dictionaries the
code itself builds populate every key. -/
structure ClusterItem where
  input_type : Option String
  text_preview : Option String
  normalized_text : Option String
  original_data : Option OriginalData
deriving DecidableEq, Repr

/-- A cluster dictionary as produced by `cluster_inputs_advanced` and
`cluster_inputs_with_history`. -/
structure Cluster where
  bucket_id : Int
  items : List ClusterItem
  item_count : Nat
  input_types : List (Option String)
deriving DecidableEq, Repr

instance : Inhabited Cluster := ⟨⟨0, [], 0, []⟩⟩

/-- The item dictionary built for a new `InputItem` (the dict literal in
`cluster_inputs_advanced` and in the history merge): `text_preview` and
`normalized_text` both hold the full normalized text. -/
def toClusterItem (x : InputItem) : ClusterItem :=
  { input_type := some x.input_type
    text_preview := some x.normalized_text
    normalized_text := some x.normalized_text
    original_data := some x.original_data }

/-- Module constant `SIMILARITY_THRESHOLD` of `semantic/clustering.py`. -/
def SIMILARITY_THRESHOLD : ℚ := 1/2

/-- Inner loop of `cluster_inputs`: scan the candidate indices `js`
(strictly later arrivals), skipping those in `used`, and add `j` to the
current cluster when its similarity to any index already in the cluster
reaches the threshold; returns the grown cluster and the grown used set
(the Python code adds each absorbed index to `used`). -/
def innerScan (sim : Nat → Nat → ℚ) (th : ℚ) :
    List Nat → List Nat → List Nat → List Nat × List Nat
  | cluster, used, [] => (cluster, used)
  | cluster, used, j :: js =>
    if j ∈ used then innerScan sim th cluster used js
    else if cluster.any (fun k => th ≤ sim k j) then
      innerScan sim th (cluster ++ [j]) (j :: used) js
    else innerScan sim th cluster used js

/-- Outer loop of `cluster_inputs`: walk the arrival-ordered indices,
opening a new cluster at each not-yet-used index. -/
def outerScan (sim : Nat → Nat → ℚ) (th : ℚ) :
    List Nat → List Nat → List (List Nat)
  | _, [] => []
  | used, i :: is =>
    if i ∈ used then outerScan sim th used is
    else
      let p := innerScan sim th [i] (i :: used) is
      p.1 :: outerScan sim th p.2 is

/-- Index-level clustering of `n` arrival-ordered items, including the
degenerate `n = 0` and `n = 1` early returns of `cluster_inputs`. -/
def clusterIdx (sim : Nat → Nat → ℚ) (th : ℚ) (n : Nat) : List (List Nat) :=
  if n = 0 then []
  else if n = 1 then [[0]]
  else outerScan sim th [] (List.range n)

/-- `cluster_inputs` from `semantic/clustering.py`: greedy order-sensitive
single-link clustering of the batch at the module threshold 0.5.
`sim a b` abstracts `cosine_similarity(get_embeddings [a], get_embeddings [b])`,
the value the code stores in `similarity_matrix` for the pair's texts. -/
def cluster_inputs (sim : String → String → ℚ) (inputs : List InputItem) :
    List (List InputItem) :=
  let texts := inputs.map (·.normalized_text)
  (clusterIdx (fun i j => sim (texts.getD i "") (texts.getD j ""))
      SIMILARITY_THRESHOLD inputs.length).map
    (fun c => c.map (fun i => inputs.getD i default))

/-- `cluster_inputs_advanced`: annotates each group with a positional
`bucket_id`, full item dictionaries, `item_count` and deduplicated
`input_types`.  Note the `threshold` argument is accepted but never
consulted — the call it makes is `cluster_inputs(inputs)`. -/
def cluster_inputs_advanced (sim : String → String → ℚ)
    (inputs : List InputItem) (_threshold : ℚ) : List Cluster :=
  (cluster_inputs sim inputs).enum.map (fun p =>
    { bucket_id := (p.1 : Int)
      items := p.2.map toClusterItem
      item_count := p.2.length
      input_types := (p.2.map (fun x => (some x.input_type : Option String))).eraseDups })

/-- Representative text of a previous cluster: the space-join of each
item's `normalized_text`, falling back to `text_preview`, falling back
to the empty string (`item.get('normalized_text', item.get('text_preview', ''))`). -/
def repText (c : Cluster) : String :=
  String.intercalate " "
    (c.items.map (fun it => it.normalized_text.getD (it.text_preview.getD "")))

/-- One pass of the history merge over the new inputs for a single
previous cluster: `s t` is the similarity of a new item's text `t` to
the cluster's representative embedding.  Mirrors the
`for i, item in enumerate(zip(...))` loop guarded by `assigned[i]`:
returns the updated (item, assigned) pairs and the matched items in
scan order. -/
def matchOne (s : String → ℚ) (th : ℚ) :
    List (InputItem × Bool) → List (InputItem × Bool) × List InputItem
  | [] => ([], [])
  | (x, a) :: rest =>
    if a then
      let p := matchOne s th rest
      ((x, a) :: p.1, p.2)
    else if th ≤ s x.normalized_text then
      let p := matchOne s th rest
      ((x, true) :: p.1, x :: p.2)
    else
      let p := matchOne s th rest
      ((x, a) :: p.1, p.2)

/-- Cluster update applied when a previous cluster matched new items:
append the item dictionaries, refresh `item_count`, recompute
`input_types` as the deduplication of every item's `input_type`. -/
def updateCluster (c : Cluster) (matched : List InputItem) : Cluster :=
  let items := c.items ++ matched.map toClusterItem
  { bucket_id := c.bucket_id
    items := items
    item_count := items.length
    input_types := (items.map (·.input_type)).eraseDups }

/-- The main merge pass of `cluster_inputs_with_history`: previous
clusters in order, each absorbing the still-unassigned new items similar
to its representative text. -/
def matchPass (sim : String → String → ℚ) (th : ℚ) :
    List (InputItem × Bool) → List Cluster → List (InputItem × Bool) × List Cluster
  | flags, [] => (flags, [])
  | flags, c :: cs =>
    let p := matchOne (fun t => sim t (repText c)) th flags
    let c' := if p.2.isEmpty then c else updateCluster c p.2
    let q := matchPass sim th p.1 cs
    (q.1, c' :: q.2)

/-- `max([c.get('bucket_id', -1) for c in previous_clusters], default=-1)`. -/
def maxBucketId (cs : List Cluster) : Int :=
  match cs.map (·.bucket_id) with
  | [] => -1
  | x :: xs => xs.foldl max x

/-- Re-number freshly created clusters to continue after the previous
maximum bucket id. -/
def renumber (m : Int) (cs : List Cluster) : List Cluster :=
  cs.enum.map (fun p => { p.2 with bucket_id := m + 1 + (p.1 : Int) })

/-- Items of `flags` still unassigned, in arrival order. -/
def unassignedOf (flags : List (InputItem × Bool)) : List InputItem :=
  (flags.filter (fun p => !p.2)).map (·.1)

/-- `cluster_inputs_with_history` from `semantic/clustering.py`.
`None` for `previous_clusters` is modelled as the empty list (the code
only ever reads it through truthiness and iteration). -/
def cluster_inputs_with_history (sim : String → String → ℚ)
    (inputs : List InputItem) (prev : List Cluster) (th : ℚ) : List Cluster :=
  if inputs.isEmpty then (if prev.isEmpty then [] else prev)
  else if prev.isEmpty then cluster_inputs_advanced sim inputs th
  else
    let p := matchPass sim th (inputs.map (fun x => (x, false))) prev
    let unassigned := unassignedOf p.1
    if unassigned.isEmpty then p.2
    else
      p.2 ++ renumber (maxBucketId prev) (cluster_inputs_advanced sim unassigned th)

/-! ## Session history store (`history/memory_store.py`)

Timestamps (`datetime.now()`) are abstracted as a `now : Nat` argument
to each mutating operation; the opaque input/response payload
dictionaries are abstracted as strings.  `None` / empty session ids are
both modelled by `""` (the code only tests truthiness).  The store is a
key-ordered association list mirroring the insertion-ordered Python
dict underlying the `defaultdict`. -/

/-- One session's record in the in-memory store. -/
structure SessionRecord where
  inputs : List (String × Nat)
  responses : List (String × Nat)
  clusters : List Cluster
  topics : List String
  user_preferences : List (String × String)
  created_at : Nat
  last_updated : Nat
deriving DecidableEq, Repr

/-- The fresh record the `defaultdict` factory produces. -/
def emptyRecord (now : Nat) : SessionRecord :=
  { inputs := [], responses := [], clusters := [], topics := []
    user_preferences := [], created_at := now, last_updated := now }

/-- The process-wide store: session id keyed records. -/
abbrev Store := List (String × SessionRecord)

/-- Dictionary lookup (`session_id in self._sessions` / direct access). -/
def findRecord (s : Store) (id : String) : Option SessionRecord :=
  (s.find? (fun p => p.1 = id)).map (·.2)

/-- Replace the record stored under `id` (the id is known to be present). -/
def setRecord (s : Store) (id : String) (r : SessionRecord) : Store :=
  s.map (fun p => if p.1 = id then (id, r) else p)

/-- `defaultdict.__getitem__`: return the existing record, or install and
return a fresh empty one.  This is the only way a record is created. -/
def getDefault (s : Store) (id : String) (now : Nat) : SessionRecord × Store :=
  match findRecord s id with
  | some r => (r, s)
  | none => (emptyRecord now, s ++ [(id, emptyRecord now)])

/-- `add_input`: append the payload with a server timestamp and bump
`last_updated`; no-op on a falsy session id. -/
def add_input (s : Store) (id : String) (data : String) (now : Nat) : Store :=
  if id = "" then s
  else
    let p := getDefault s id now
    setRecord p.2 id
      { p.1 with inputs := p.1.inputs ++ [(data, now)], last_updated := now }

/-- `add_response`: as `add_input`, on the responses list. -/
def add_response (s : Store) (id : String) (data : String) (now : Nat) : Store :=
  if id = "" then s
  else
    let p := getDefault s id now
    setRecord p.2 id
      { p.1 with responses := p.1.responses ++ [(data, now)], last_updated := now }

/-- `save_clusters`: last-writer-wins overwrite of the saved cluster set. -/
def save_clusters (s : Store) (id : String) (clusters : List Cluster) (now : Nat) :
    Store :=
  if id = "" then s
  else
    let p := getDefault s id now
    setRecord p.2 id { p.1 with clusters := clusters, last_updated := now }

/-- `get_clusters`: paired with the (unchanged) store to make the frame
effect of the read explicit.  An unknown or falsy id yields `[]`. -/
def get_clusters (s : Store) (id : String) : List Cluster × Store :=
  if id = "" ∨ (findRecord s id).isNone then ([], s)
  else (((findRecord s id).getD (emptyRecord 0)).clusters, s)

/-- The structure `get_history` returns. -/
structure HistoryOut where
  previous_inputs : List (String × Nat)
  previous_responses : List (String × Nat)
  session_summary : Option String
  topics_discussed : List String
  user_preferences : List (String × String)
deriving DecidableEq, Repr

/-- The all-empty history returned for an unknown session. -/
def emptyHistoryOut : HistoryOut := ⟨[], [], none, [], []⟩

/-- Python `l[-limit:]`: the last `limit` elements, the whole list when
`limit = 0` (negative zero indexing). -/
def lastSlice (l : List α) (limit : Nat) : List α :=
  if limit = 0 then l else l.drop (l.length - limit)

/-- `_generate_summary`: a counts-based summary, `None` for a session
with no inputs. -/
def generate_summary (r : SessionRecord) : Option String :=
  if r.inputs.isEmpty then none
  else some ("Session with " ++ toString r.inputs.length ++ " input(s) and "
      ++ toString r.responses.length ++ " response(s)")

/-- `get_history`: recent window of inputs/responses plus summary, topics
and preferences; all-empty structure for an unknown or falsy id.  Paired
with the (unchanged) store to make the frame effect explicit. -/
def get_history (s : Store) (id : String) (limit : Nat) : HistoryOut × Store :=
  if id = "" ∨ (findRecord s id).isNone then (emptyHistoryOut, s)
  else
    let r := (findRecord s id).getD (emptyRecord 0)
    ({ previous_inputs := lastSlice r.inputs limit
       previous_responses := lastSlice r.responses limit
       session_summary := generate_summary r
       topics_discussed := r.topics
       user_preferences := r.user_preferences }, s)

/-! ## Ambiguity resolver (`elicitation/resolver.py`)

The external reasoning service call is abstracted as an
`Except Unit String` (a raised exception, or the raw textual reply);
the JSON extraction of `_parse_llm_response` over the raw reply is
abstracted as a `String → Option ReasoningOut` parameter.  The marker
based `_parse_text_response` fallback is embedded concretely. -/

/-- The structured fields `_check_if_clarification_needed` reads off a
parsed reply: `result.get('decision', 'CLEAR')`,
`result.get('reasoning', \x7b\x7d).get('confidence', 0.5)` and
`result.get('questions', [])`, with `none` for an absent key. -/
structure ReasoningOut where
  decision : Option String
  confidence : Option ℚ
  questions : Option (List String)

/-- Python `sub in s` for strings. -/
def substrIn (sub s : String) : Bool := (s.splitOn sub).length > 1

/-- The bullet characters stripped by `re.sub(r'^[-•*\"\x27]+\s*', '', line)`. -/
def isBullet (c : Char) : Bool :=
  c = '-' || c = '•' || c = '*' || c = '"' || c.toNat = 39

/-- Strip a leading run of bullet characters and the whitespace that
follows it; a line not starting with a bullet is unchanged. -/
def stripBullets (s : String) : String :=
  match s.data with
  | [] => s
  | c :: _ =>
    if isBullet c then
      String.mk ((s.data.dropWhile isBullet).dropWhile (·.isWhitespace))
    else s

/-- The question-collecting loop of `_parse_text_response`: marker lines
switch collection on; collected non-blank lines are stripped of bullets
and kept when longer than 10 characters, stopping after two. -/
def collectQ : List String → Bool → List String → List String
  | [], _, acc => acc.reverse
  | line :: rest, collecting, acc =>
    if substrIn "QUESTIONS:" line.toUpper || substrIn "question" line.toLower then
      collectQ rest true acc
    else if collecting && line.trim ≠ "" then
      let q := stripBullets line.trim
      if q ≠ "" && q.length > 10 then
        if acc.length + 1 ≥ 2 then (q :: acc).reverse
        else collectQ rest collecting (q :: acc)
      else collectQ rest collecting acc
    else collectQ rest collecting acc

/-- `_parse_text_response`: flag on a literal `NEEDS_CLARIFICATION`
marker anywhere in the upper-cased reply; questions collected only when
the flag is set. -/
def parse_text_response (response : String) : Bool × List String :=
  let needs := substrIn "NEEDS_CLARIFICATION" response.toUpper
  if needs then (true, collectQ (response.splitOn "\n") false []) else (false, [])

/-- `_check_if_clarification_needed`: decode the reply (structured result
first, marker-text fallback), accept a NEEDS_CLARIFICATION verdict only
at confidence ≥ 0.8, and swallow any exception of the external call into
CLEAR/no-questions. -/
def check_if_clarification_needed (parse : String → Option ReasoningOut)
    (call : Except Unit String) : Bool × List String :=
  match call with
  | .error _ => (false, [])
  | .ok response =>
    match parse response with
    | some result =>
      let needs := result.decision.getD "CLEAR" = "NEEDS_CLARIFICATION"
      let qs := result.questions.getD []
      let conf := result.confidence.getD (1/2)
      if needs ∧ 4/5 ≤ conf then (true, qs.take 2) else (false, [])
    | none => parse_text_response response

/-- A cluster dictionary as seen by the resolver: the merge output plus
the keys the resolver itself may add. -/
structure RCluster where
  base : Cluster
  confidence_score : Option ℚ
  requires_clarification : Option Bool
deriving DecidableEq, Repr

/-- `analyze_and_resolve`: pass-through CLEAR on an empty batch;
otherwise judge the newest item via the reasoning service and, on a
confident NEEDS_CLARIFICATION, blanket-downgrade every cluster. -/
def analyze_and_resolve (parse : String → Option ReasoningOut)
    (call : Except Unit String) (input_items : List InputItem)
    (clusters : List RCluster) :
    List RCluster × List Unit × List Unit × Bool × List String :=
  if input_items.isEmpty then (clusters, [], [], false, [])
  else
    let p := check_if_clarification_needed parse call
    let resolved :=
      if p.1 then
        clusters.map (fun c =>
          { c with confidence_score := some (3/5), requires_clarification := some true })
      else clusters
    (resolved, [], [], p.1, p.2)

/-! ## Context envelope constructor (`context/constructor.py`) -/

/-- The fields of `ClusterEnvelope` that the complexity assessment and
text extraction read or produce. -/
structure ClusterEnvelope where
  bucket_id : Int
  items : List ClusterItem
  normalized_text : String
  input_types : List (Option String)
  item_count : Nat
  semantic_summary : Option String
  confidence_score : ℚ
  requires_clarification : Bool
  clarification_questions : List String
deriving DecidableEq, Repr

/-- The per-item branch of `_extract_cluster_text`'s loop: a present
`text_preview` key wins; otherwise a `raw_text` inside the item's
`original_data.gateway_output`; otherwise the item contributes nothing. -/
def collectTexts : List ClusterItem → List String
  | [] => []
  | it :: rest =>
    match it.text_preview with
    | some p => p :: collectTexts rest
    | none =>
      match it.original_data with
      | some od =>
        match od.gateway_output with
        | some gw =>
          match gw.raw_text with
          | some r => r :: collectTexts rest
          | none => collectTexts rest
        | none => collectTexts rest
      | none => collectTexts rest

/-- `_extract_cluster_text`: blank-line join of the collected item texts. -/
def extract_cluster_text (c : Cluster) : String :=
  let cluster_texts := collectTexts c.items
  if cluster_texts.isEmpty then "" else String.intercalate "\n\n" cluster_texts

/-- Complexity thresholds from `context/constructor.py`. -/
def COMPLEX_CLUSTERS : Nat := 3
/-- Item-count threshold for the complex class. -/
def COMPLEX_ITEMS : Nat := 5
/-- Text-length threshold for the complex class. -/
def COMPLEX_TEXT_LENGTH : Nat := 5000
/-- Text-length bound for the simple class. -/
def SIMPLE_TEXT_LENGTH : Nat := 500

/-- `_assess_complexity`: classify the request from cluster count, total
item count and total combined text length. -/
def assess_complexity (envs : List ClusterEnvelope) : String :=
  let total_items := (envs.map (·.item_count)).sum
  let total_text_length := (envs.map (·.normalized_text.length)).sum
  let num_clusters := envs.length
  if num_clusters > COMPLEX_CLUSTERS ∨ total_items > COMPLEX_ITEMS ∨
      total_text_length > COMPLEX_TEXT_LENGTH then "complex"
  else if num_clusters = 1 ∧ total_items = 1 ∧
      total_text_length < SIMPLE_TEXT_LENGTH then "simple"
  else "medium"

/-- Per-item text choice actually implemented by the extraction loop:
the preview field wins, then embedded raw source text, else nothing. -/
def itemTextPref (it : ClusterItem) : Option String :=
  it.text_preview <|> (it.original_data.bind (·.gateway_output)).bind (·.raw_text)

/-- Per-item text choice in the order the specification claims: stored
full text first, then embedded raw source text, then preview text. -/
def claimedItemText (it : ClusterItem) : Option String :=
  it.normalized_text <|>
    ((it.original_data.bind (·.gateway_output)).bind (·.raw_text) <|> it.text_preview)

/-- Cluster text extraction as the specification words it (stored full
text preferred), for comparison with `extract_cluster_text`. -/
def claimed_extract_cluster_text (c : Cluster) : String :=
  let ts := c.items.filterMap claimedItemText
  if ts.isEmpty then "" else String.intercalate "\n\n" ts

/-- Convenience: the items of every cluster of a list, concatenated. -/
def allItems (cs : List Cluster) : List ClusterItem :=
  (cs.map (·.items)).flatten

end Omni

namespace Omni

/-! ## Theorems -/

/-- C8: the complexity classification is total (always one of the three
labels) and mutually exclusive, with the stated precedence on the
(cluster count, total item count, total text length) triple computed
from the envelopes: complex if count > 3 or items > 5 or length > 5000;
otherwise simple iff exactly 1 cluster, 1 item, length < 500; otherwise
medium. -/
theorem assess_complexity_total_exclusive (envs : List ClusterEnvelope) :
    (assess_complexity envs = "complex" ∨ assess_complexity envs = "simple" ∨
      assess_complexity envs = "medium") ∧
    (assess_complexity envs = "complex" ↔
      (envs.length > 3 ∨ (envs.map (·.item_count)).sum > 5 ∨
        (envs.map (·.normalized_text.length)).sum > 5000)) ∧
    (assess_complexity envs = "simple" ↔
      (¬(envs.length > 3 ∨ (envs.map (·.item_count)).sum > 5 ∨
          (envs.map (·.normalized_text.length)).sum > 5000) ∧
        (envs.length = 1 ∧ (envs.map (·.item_count)).sum = 1 ∧
          (envs.map (·.normalized_text.length)).sum < 500))) ∧
    (assess_complexity envs = "medium" ↔
      (¬(envs.length > 3 ∨ (envs.map (·.item_count)).sum > 5 ∨
          (envs.map (·.normalized_text.length)).sum > 5000) ∧
        ¬(envs.length = 1 ∧ (envs.map (·.item_count)).sum = 1 ∧
          (envs.map (·.normalized_text.length)).sum < 500))) := by
  unfold assess_complexity COMPLEX_CLUSTERS COMPLEX_ITEMS COMPLEX_TEXT_LENGTH
    SIMPLE_TEXT_LENGTH
  dsimp only
  by_cases h1 : envs.length > 3 ∨ (envs.map (·.item_count)).sum > 5 ∨
      (envs.map (·.normalized_text.length)).sum > 5000
  · rw [if_pos h1]
    refine ⟨Or.inl rfl, iff_of_true rfl h1, ?_, ?_⟩
    · constructor
      · intro h; exact absurd h (by decide)
      · rintro ⟨hn, -⟩; exact absurd h1 hn
    · constructor
      · intro h; exact absurd h (by decide)
      · rintro ⟨hn, -⟩; exact absurd h1 hn
  · rw [if_neg h1]
    by_cases h2 : envs.length = 1 ∧ (envs.map (·.item_count)).sum = 1 ∧
        (envs.map (·.normalized_text.length)).sum < 500
    · rw [if_pos h2]
      refine ⟨Or.inr (Or.inl rfl), ?_, iff_of_true rfl ⟨h1, h2⟩, ?_⟩
      · constructor
        · intro h; exact absurd h (by decide)
        · intro h; exact absurd h h1
      · constructor
        · intro h; exact absurd h (by decide)
        · rintro ⟨-, hn⟩; exact absurd h2 hn
    · rw [if_neg h2]
      refine ⟨Or.inr (Or.inr rfl), ?_, ?_, iff_of_true rfl ⟨h1, h2⟩⟩
      · constructor
        · intro h; exact absurd h (by decide)
        · intro h; exact absurd h h1
      · constructor
        · intro h; exact absurd h (by decide)
        · rintro ⟨-, hs⟩; exact absurd hs h2

/-- C9: merging an empty batch of new inputs returns the previous
clusters exactly (the `previous_clusters or []` early return), and the
empty list when both arguments are empty. -/
theorem merge_empty_batch (sim : String → String → ℚ) (th : ℚ)
    (prev : List Cluster) (h : prev ≠ []) :
    cluster_inputs_with_history sim [] prev th = prev ∧
    cluster_inputs_with_history sim [] [] th = [] := by
  constructor
  · unfold cluster_inputs_with_history
    simp [List.isEmpty_iff, h]
  · rfl

/-- Witness for C9 at a concrete previous cluster list. -/
theorem merge_empty_batch_witness :
    cluster_inputs_with_history (fun _ _ => 0) [] [⟨0, [], 0, []⟩] (2/5) =
      [⟨0, [], 0, []⟩] ∧
    cluster_inputs_with_history (fun _ _ => 0) [] [] (2/5) = [] :=
  merge_empty_batch (fun _ _ => 0) (2/5) [⟨0, [], 0, []⟩] (by simp)

/-- C6: when the reasoning-service reply decodes to a structured result
whose decision is NEEDS_CLARIFICATION but whose stated confidence is
strictly below 0.8, `analyze_and_resolve` resolves to CLEAR: the
returned `needs_clarification` flag is false and the question list is
empty. -/
theorem low_confidence_resolves_clear (parse : String → Option ReasoningOut)
    (call : Except Unit String) (items : List InputItem)
    (clusters : List RCluster) (resp : String) (r : ReasoningOut) (conf : ℚ)
    (hcall : call = .ok resp) (hparse : parse resp = some r)
    (hdec : r.decision = some "NEEDS_CLARIFICATION")
    (hconf : r.confidence = some conf) (hlt : conf < 4/5) :
    (analyze_and_resolve parse call items clusters).2.2.2.1 = false ∧
    (analyze_and_resolve parse call items clusters).2.2.2.2 = [] := by
  subst hcall
  unfold analyze_and_resolve
  by_cases hi : items.isEmpty
  · simp [hi]
  · have hcheck : check_if_clarification_needed parse (.ok resp) = (false, []) := by
      unfold check_if_clarification_needed
      dsimp only
      rw [hparse]
      simp only [hdec, hconf, Option.getD_some]
      rw [if_neg]
      rintro ⟨-, hle⟩
      exact absurd hlt (not_lt.mpr hle)
    simp [hi, hcheck]

/-- Witness for C6: a mocked reply with decision NEEDS_CLARIFICATION and
confidence 0.79. -/
theorem low_confidence_resolves_clear_witness :
    (analyze_and_resolve
        (fun _ => some ⟨some "NEEDS_CLARIFICATION", some (79/100), some ["which one?"]⟩)
        (.ok "reply") [⟨"text", "do it", ⟨none⟩⟩] []).2.2.2.1 = false ∧
    (analyze_and_resolve
        (fun _ => some ⟨some "NEEDS_CLARIFICATION", some (79/100), some ["which one?"]⟩)
        (.ok "reply") [⟨"text", "do it", ⟨none⟩⟩] []).2.2.2.2 = [] :=
  low_confidence_resolves_clear
    (fun _ => some ⟨some "NEEDS_CLARIFICATION", some (79/100), some ["which one?"]⟩)
    (.ok "reply") [⟨"text", "do it", ⟨none⟩⟩] [] "reply"
    ⟨some "NEEDS_CLARIFICATION", some (79/100), some ["which one?"]⟩ (79/100)
    rfl rfl rfl rfl (by norm_num)

/-- C7: if the external reasoning call raises, or the reply defeats every
decoding strategy (no structured result and no literal ambiguity
marker), `analyze_and_resolve` yields needs_clarification = false with
no questions; the embedded resolver is a total function, so the fault
never escapes as a request failure. -/
theorem resolver_swallows_faults (parse : String → Option ReasoningOut)
    (call : Except Unit String) (items : List InputItem)
    (clusters : List RCluster)
    (h : (∃ e, call = .error e) ∨
      ∃ resp, call = .ok resp ∧ parse resp = none ∧
        substrIn "NEEDS_CLARIFICATION" resp.toUpper = false) :
    (analyze_and_resolve parse call items clusters).2.2.2.1 = false ∧
    (analyze_and_resolve parse call items clusters).2.2.2.2 = [] := by
  have hcheck : check_if_clarification_needed parse call = (false, []) := by
    rcases h with ⟨e, he⟩ | ⟨resp, hresp, hparse, hmark⟩
    · subst he; rfl
    · subst hresp
      unfold check_if_clarification_needed
      dsimp only
      rw [hparse]
      unfold parse_text_response
      simp [hmark]
  unfold analyze_and_resolve
  by_cases hi : items.isEmpty <;> simp [hi, hcheck]

/-- The extraction loop contributes, per item, exactly the preference
`text_preview`, then embedded raw text, else nothing. -/
theorem collectTexts_eq_filterMap (l : List ClusterItem) :
    collectTexts l = l.filterMap itemTextPref := by
  induction l with
  | nil => rfl
  | cons it rest ih =>
    rcases it with ⟨ti, tp, nt, od⟩
    rcases tp with _ | p
    · rcases od with _ | ⟨gw⟩
      · simpa [collectTexts, itemTextPref] using ih
      · rcases gw with _ | ⟨rt⟩
        · simpa [collectTexts, itemTextPref] using ih
        · rcases rt with _ | r <;> simpa [collectTexts, itemTextPref] using ih
    · simpa [collectTexts, itemTextPref] using ih

/-- C3 counterexample: on an item that stores both a full-text field and
a different preview text, the constructor uses the preview, not the
stored full text the claim says is preferred. -/
theorem extract_cluster_text_order_cex :
    extract_cluster_text
        ⟨0, [⟨none, some "preview text", some "full text", none⟩], 1, []⟩ =
      "preview text" ∧
    claimed_extract_cluster_text
        ⟨0, [⟨none, some "preview text", some "full text", none⟩], 1, []⟩ =
      "full text" ∧
    extract_cluster_text
        ⟨0, [⟨none, some "preview text", some "full text", none⟩], 1, []⟩ ≠
      claimed_extract_cluster_text
        ⟨0, [⟨none, some "preview text", some "full text", none⟩], 1, []⟩ := by
  refine ⟨rfl, rfl, by decide⟩

/-- C3 amended: the cluster envelope's normalized_text extracts each
item's text preferring the preview field, falling back to raw source
text embedded in the item's original data (items with neither are
skipped), and joins the texts with a blank-line separator. -/
theorem extract_cluster_text_prefers_preview (c : Cluster) :
    extract_cluster_text c =
      (if (c.items.filterMap itemTextPref).isEmpty then ""
       else String.intercalate "\n\n" (c.items.filterMap itemTextPref)) := by
  unfold extract_cluster_text
  rw [collectTexts_eq_filterMap]

/-- Skipping a non-matching key leaves a record lookup unchanged. -/
theorem findRecord_cons_ne (p : String × SessionRecord) (rest : Store)
    (id : String) (h : ¬p.1 = id) :
    findRecord (p :: rest) id = findRecord rest id := by
  unfold findRecord
  rw [List.find?_cons_of_neg]
  simpa using h

/-- After installing a fresh record for an unseen id and overwriting it,
the lookup returns the overwritten record. -/
theorem findRecord_write (s : Store) (id : String) (r0 r : SessionRecord)
    (h : findRecord s id = none) :
    findRecord (setRecord (s ++ [(id, r0)]) id r) id = some r := by
  induction s with
  | nil => simp [setRecord, findRecord]
  | cons p rest ih =>
    have hp : ¬p.1 = id := by
      intro he
      simp [findRecord, List.find?_cons, he] at h
    have hr : findRecord rest id = none := by
      rwa [findRecord_cons_ne p rest id hp] at h
    calc findRecord (setRecord ((p :: rest) ++ [(id, r0)]) id r) id
        = findRecord ((if p.1 = id then (id, r) else p) ::
            setRecord (rest ++ [(id, r0)]) id r) id := by
          simp [setRecord]
      _ = findRecord (setRecord (rest ++ [(id, r0)]) id r) id := by
          rw [if_neg hp]; exact findRecord_cons_ne p _ id hp
      _ = some r := ih hr

/-- C4 counterexample: reading an unseen session id through the history
store does not create a record — the store is returned unchanged and the
id is still absent afterwards. -/
theorem store_read_no_create_cex :
    (get_history ([] : Store) "S1" 10).2 = ([] : Store) ∧
    (get_clusters ([] : Store) "S1").2 = ([] : Store) ∧
    findRecord ((get_history ([] : Store) "S1" 10).2) "S1" = none := by
  refine ⟨rfl, rfl, rfl⟩

/-- C4 amended: for a session id not yet present, reads (`get_history`,
`get_clusters`) return the empty defaults and leave the store unchanged
— so repeating the read is idempotent and creates nothing — while a
write such as `add_input` does implicitly create the record. -/
theorem store_reads_do_not_create (s : Store) (id d : String)
    (now limit : Nat) (hid : id ≠ "") (h : findRecord s id = none) :
    get_history s id limit = (emptyHistoryOut, s) ∧
    get_clusters s id = ([], s) ∧
    findRecord (add_input s id d now) id =
      some { emptyRecord now with inputs := [(d, now)], last_updated := now } := by
  refine ⟨?_, ?_, ?_⟩
  · unfold get_history
    rw [if_pos (Or.inr (by simp [h]))]
  · unfold get_clusters
    rw [if_pos (Or.inr (by simp [h]))]
  · unfold add_input
    rw [if_neg hid]
    dsimp only
    unfold getDefault
    rw [h]
    exact findRecord_write s id _ _ h

/-- Witness for C4's amended statement at a concrete empty store. -/
theorem store_reads_do_not_create_witness :
    get_history ([] : Store) "S1" 10 = (emptyHistoryOut, ([] : Store)) ∧
    get_clusters ([] : Store) "S1" = ([], ([] : Store)) ∧
    findRecord (add_input ([] : Store) "S1" "hi" 7) "S1" =
      some { emptyRecord 7 with inputs := [("hi", 7)], last_updated := 7 } :=
  store_reads_do_not_create [] "S1" "hi" 7 10 (by decide) rfl

/-- Evaluation of the history merge on a single new input against a
single previous cluster with no items: the empty cluster's
representative text is the empty string; the input is absorbed when
similar enough to it, else it opens a fresh cluster. -/
theorem merge_singleton_empty_eval (sim : String → String → ℚ) (th : ℚ)
    (x : InputItem) (c : Cluster) (h : c.items = []) :
    cluster_inputs_with_history sim [x] [c] th =
      if th ≤ sim x.normalized_text "" then
        [{ bucket_id := c.bucket_id, items := [toClusterItem x], item_count := 1,
           input_types := [some x.input_type] }]
      else
        [c, { bucket_id := c.bucket_id + 1, items := [toClusterItem x],
              item_count := 1, input_types := [some x.input_type] }] := by
  have hrep : repText c = "" := by rw [repText, h]; rfl
  by_cases hs : th ≤ sim x.normalized_text ""
  · rw [if_pos hs]
    simp only [cluster_inputs_with_history, matchPass, matchOne, hrep, hs,
      if_true, List.isEmpty_cons, Bool.false_eq_true, if_false, updateCluster,
      unassignedOf, h]
    norm_num [List.eraseDups, List.eraseDups.loop, unassignedOf, toClusterItem]
  · rw [if_neg hs]
    simp only [cluster_inputs_with_history, matchPass, matchOne, hrep, hs,
      if_false, List.isEmpty_cons, unassignedOf, maxBucketId, renumber,
      cluster_inputs_advanced, cluster_inputs, clusterIdx]
    norm_num [List.eraseDups, List.eraseDups.loop, toClusterItem]

/-- C5 counterexample: a previous cluster with no items does get a
representative (the embedding of the empty string) and does absorb a new
item similar to it — it is not passed through unchanged. -/
theorem merge_empty_cluster_cex :
    cluster_inputs_with_history (fun _ _ => 1) [⟨"text", "hello", ⟨none⟩⟩]
        [⟨0, [], 0, []⟩] (2/5) =
      [⟨0, [toClusterItem ⟨"text", "hello", ⟨none⟩⟩], 1, [some "text"]⟩] ∧
    ([⟨0, [toClusterItem ⟨"text", "hello", ⟨none⟩⟩], 1, [some "text"]⟩] :
        List Cluster) ≠ [⟨0, [], 0, []⟩] := by
  constructor
  · rw [merge_singleton_empty_eval (fun _ _ => 1) (2/5) ⟨"text", "hello", ⟨none⟩⟩
      ⟨0, [], 0, []⟩ rfl]
    rw [if_pos (by norm_num)]
  · simp [toClusterItem]

/-- Unfolding of the unassigned-item extraction over one flag pair. -/
theorem unassignedOf_cons (x : InputItem) (a : Bool)
    (rest : List (InputItem × Bool)) :
    unassignedOf ((x, a) :: rest) =
      if a then unassignedOf rest else x :: unassignedOf rest := by
  cases a <;> simp [unassignedOf]

/-- The merge pass over a concatenation of cluster lists is the pass
over the first part followed by the pass over the second, the second
starting from the flags left by the first. -/
theorem matchPass_append (sim : String → String → ℚ) (th : ℚ)
    (pre rest : List Cluster) :
    ∀ flags : List (InputItem × Bool),
      matchPass sim th flags (pre ++ rest) =
        ((matchPass sim th (matchPass sim th flags pre).1 rest).1,
          (matchPass sim th flags pre).2 ++
            (matchPass sim th (matchPass sim th flags pre).1 rest).2) := by
  induction pre with
  | nil => intro flags; simp [matchPass]
  | cons cHead cs ih => intro flags; simp [matchPass, ih]

/-- The merge pass returns one output cluster per previous cluster. -/
theorem matchPass_length (sim : String → String → ℚ) (th : ℚ)
    (cs : List Cluster) :
    ∀ flags : List (InputItem × Bool),
      (matchPass sim th flags cs).2.length = cs.length := by
  induction cs with
  | nil => intro flags; simp [matchPass]
  | cons c cs ih => intro flags; simp [matchPass, ih]

/-- A cluster's matched items are exactly the still-unassigned items
similar enough to its representative, in scan order. -/
theorem matchOne_matched (s : String → ℚ) (th : ℚ)
    (flags : List (InputItem × Bool)) :
    (matchOne s th flags).2 =
      (unassignedOf flags).filter (fun x => th ≤ s x.normalized_text) := by
  induction flags with
  | nil => rfl
  | cons xa rest ih =>
    obtain ⟨x, a⟩ := xa
    cases a
    · by_cases hm : th ≤ s x.normalized_text
      · simp [matchOne, hm, unassignedOf_cons, List.filter_cons, ih]
      · simp [matchOne, hm, unassignedOf_cons, List.filter_cons, ih]
    · simp [matchOne, unassignedOf_cons, ih]

/-- C5 amended: in every merge call, a previous cluster with no items
(at any position, among any previous clusters, against any input batch)
gets the empty string as its representative text: at its turn in the
pass it absorbs exactly the new items still unassigned after the
clusters before it, whose similarity to the empty string reaches the
threshold, and it appears in the output unchanged precisely when no
such item matches. -/
theorem merge_empty_cluster (sim : String → String → ℚ) (th : ℚ)
    (inputs : List InputItem) (pre post : List Cluster) (c : Cluster)
    (hin : inputs ≠ []) (hc : c.items = []) :
    (cluster_inputs_with_history sim inputs (pre ++ c :: post) th).getD
        pre.length default =
      (if ((unassignedOf
              (matchPass sim th (inputs.map (fun x => (x, false))) pre).1).filter
            (fun x => th ≤ sim x.normalized_text "")).isEmpty
        then c
        else updateCluster c
          ((unassignedOf
              (matchPass sim th (inputs.map (fun x => (x, false))) pre).1).filter
            (fun x => th ≤ sim x.normalized_text ""))) := by
  have hrep : repText c = "" := by rw [repText, hc]; rfl
  have hkey : (matchPass sim th (inputs.map (fun x => (x, false)))
        (pre ++ c :: post)).2.getD pre.length default =
      (if ((unassignedOf
              (matchPass sim th (inputs.map (fun x => (x, false))) pre).1).filter
            (fun x => th ≤ sim x.normalized_text "")).isEmpty
        then c
        else updateCluster c
          ((unassignedOf
              (matchPass sim th (inputs.map (fun x => (x, false))) pre).1).filter
            (fun x => th ≤ sim x.normalized_text ""))) := by
    rw [matchPass_append]
    dsimp only
    rw [List.getD_append_right _ _ _ _
      (le_of_eq (matchPass_length sim th pre (inputs.map (fun x => (x, false))))),
      matchPass_length, Nat.sub_self]
    have hhead : (matchPass sim th
          (matchPass sim th (inputs.map (fun x => (x, false))) pre).1
          (c :: post)).2 =
        (if (matchOne (fun t => sim t (repText c)) th
              (matchPass sim th (inputs.map (fun x => (x, false))) pre).1).2.isEmpty
          then c
          else updateCluster c
            (matchOne (fun t => sim t (repText c)) th
              (matchPass sim th (inputs.map (fun x => (x, false))) pre).1).2) ::
          (matchPass sim th
            (matchOne (fun t => sim t (repText c)) th
              (matchPass sim th (inputs.map (fun x => (x, false))) pre).1).1
            post).2 := rfl
    rw [hhead]
    rw [hrep, matchOne_matched]
    rfl
  unfold cluster_inputs_with_history
  rw [if_neg (fun hp => hin (List.isEmpty_iff.mp hp)),
    if_neg (by simp : ¬(pre ++ c :: post).isEmpty = true)]
  dsimp only
  by_cases hu : (unassignedOf (matchPass sim th
      (inputs.map (fun x => (x, false))) (pre ++ c :: post)).1).isEmpty
  · rw [if_pos hu]
    exact hkey
  · rw [if_neg hu]
    have hlt : pre.length < (matchPass sim th
        (inputs.map (fun x => (x, false))) (pre ++ c :: post)).2.length := by
      rw [matchPass_length]
      simp
    rw [List.getD_append _ _ _ _ hlt]
    exact hkey

/-- Witness for C5's amended statement: an always-similar embedding; the
empty previous cluster (bucket id 5) absorbs the single unassigned new
item. -/
theorem merge_empty_cluster_witness :
    (cluster_inputs_with_history (fun _ _ => 1) [⟨"text", "hello", ⟨none⟩⟩]
        [⟨5, [], 0, []⟩] (2/5)).getD 0 default =
      updateCluster ⟨5, [], 0, []⟩ [⟨"text", "hello", ⟨none⟩⟩] := by
  have hmain := merge_empty_cluster (fun _ _ => 1) (2/5) [⟨"text", "hello", ⟨none⟩⟩]
    [] [] ⟨5, [], 0, []⟩ (by simp) rfl
  simp only [List.nil_append, List.length_nil] at hmain
  rw [hmain]
  rw [if_neg (by norm_num [matchPass, unassignedOf, List.filter])]
  norm_num [matchPass, unassignedOf, List.filter]

/-- Evaluation of the base clustering on a pair whose similarity reaches
the module constant 0.5: the two items land in one group. -/
theorem cluster_inputs_pair (sim : String → String → ℚ) (x y : InputItem)
    (h : SIMILARITY_THRESHOLD ≤ sim x.normalized_text y.normalized_text) :
    cluster_inputs sim [x, y] = [[x, y]] := by
  unfold cluster_inputs clusterIdx
  rw [show List.range ([x, y] : List InputItem).length = [0, 1] from rfl]
  simp [outerScan, innerScan, h]

/-- C2 (the code evaluated at the failing input): `cluster_inputs_advanced`
at its default threshold 0.6 still merges a pair whose similarity is
0.55, because the threshold argument is never consulted — clustering
happens inside `cluster_inputs` at the module constant 0.5. -/
theorem advanced_threshold_ignored :
    cluster_inputs_advanced (fun a b => if a = b then 1 else 11/20)
        [⟨"text", "alpha", ⟨none⟩⟩, ⟨"text", "beta", ⟨none⟩⟩] (3/5) =
      [⟨0, [toClusterItem ⟨"text", "alpha", ⟨none⟩⟩,
            toClusterItem ⟨"text", "beta", ⟨none⟩⟩], 2, [some "text"]⟩] := by
  unfold cluster_inputs_advanced
  rw [cluster_inputs_pair _ _ _ (by
    show SIMILARITY_THRESHOLD ≤ if ("alpha" : String) = "beta" then 1 else 11/20
    rw [if_neg (by decide)]
    norm_num [SIMILARITY_THRESHOLD])]
  rfl

/-- Characterization of the inner clustering scan on duplicate-free
candidates: it appends to the cluster a sublist `t` of the candidates,
records `t` in the used set, and the candidates outside the old used set
are, up to permutation, `t` together with the candidates outside the new
used set. -/
theorem innerScan_spec (sim : Nat → Nat → ℚ) (th : ℚ) (js : List Nat) :
    ∀ cluster used : List Nat, js.Nodup →
      ∃ t : List Nat,
        innerScan sim th cluster used js = (cluster ++ t, t.reverse ++ used) ∧
        t.Sublist js ∧
        List.Perm (js.filter (fun j => j ∉ used))
          (t ++ js.filter (fun j => j ∉ (t.reverse ++ used))) := by
  induction js with
  | nil =>
    intro cluster used _
    exact ⟨[], by simp [innerScan], List.Sublist.refl [], by simp⟩
  | cons j js ih =>
    intro cluster used hnd
    obtain ⟨hjs, hnd'⟩ := List.nodup_cons.mp hnd
    by_cases hj : j ∈ used
    · obtain ⟨t, heq, hsub, hperm⟩ := ih cluster used hnd'
      refine ⟨t, ?_, hsub.cons j, ?_⟩
      · rw [innerScan, if_pos hj, heq]
      · have hju : j ∈ t.reverse ++ used := List.mem_append.mpr (Or.inr hj)
        rw [List.filter_cons_of_neg (by simp [hj]),
          List.filter_cons_of_neg (by simp [hju])]
        exact hperm
    · by_cases hm : cluster.any (fun k => th ≤ sim k j) = true
      · obtain ⟨t, heq, hsub, hperm⟩ := ih (cluster ++ [j]) (j :: used) hnd'
        have hfe : js.filter (fun i => i ∉ used) =
            js.filter (fun i => i ∉ (j :: used)) := by
          refine List.filter_congr ?_
          intro a ha
          have : a ≠ j := fun hc => hjs (hc ▸ ha)
          simp [this]
        refine ⟨j :: t, ?_, hsub.cons₂ j, ?_⟩
        · rw [innerScan, if_neg hj, if_pos hm, heq]
          simp
        · have hjin : j ∈ (j :: t).reverse ++ used := by simp
          rw [List.filter_cons_of_pos (by simpa using hj),
            List.filter_cons_of_neg (by simp [hjin])]
          have hlist : (j :: t).reverse ++ used = t.reverse ++ (j :: used) := by
            simp
          rw [hlist, hfe]
          exact (hperm.cons j)
      · obtain ⟨t, heq, hsub, hperm⟩ := ih cluster used hnd'
        have hjt : j ∉ t := fun hc => hjs (hsub.subset hc)
        refine ⟨t, ?_, hsub.cons j, ?_⟩
        · rw [innerScan, if_neg hj, if_neg hm, heq]
        · have hjnew : j ∉ t.reverse ++ used := by
            intro hc
            rcases List.mem_append.mp hc with hc' | hc'
            · exact hjt (List.mem_reverse.mp hc')
            · exact hj hc'
          rw [List.filter_cons_of_pos (by simpa using hj),
            List.filter_cons_of_pos (by simpa using hjnew)]
          exact (hperm.cons j).trans List.perm_middle.symm

/-- The clusters the outer scan emits cover, up to permutation, exactly
the not-yet-used indices. -/
theorem outerScan_flatten_perm (sim : Nat → Nat → ℚ) (th : ℚ) (l : List Nat) :
    ∀ used : List Nat, l.Nodup →
      List.Perm (outerScan sim th used l).flatten
        (l.filter (fun j => j ∉ used)) := by
  induction l with
  | nil => intro used _; simp [outerScan]
  | cons i is ih =>
    intro used hnd
    obtain ⟨his, hnd'⟩ := List.nodup_cons.mp hnd
    by_cases hi : i ∈ used
    · rw [outerScan, if_pos hi, List.filter_cons_of_neg (by simpa using hi)]
      exact ih used hnd'
    · obtain ⟨t, heq, hsub, hperm⟩ := innerScan_spec sim th is [i] (i :: used) hnd'
      rw [outerScan, if_neg hi, List.filter_cons_of_pos (by simpa using hi)]
      dsimp only
      rw [heq]
      dsimp only
      have hfe : is.filter (fun j => j ∉ used) =
          is.filter (fun j => j ∉ (i :: used)) := by
        refine List.filter_congr ?_
        intro a ha
        have : a ≠ i := fun hc => his (hc ▸ ha)
        simp [this]
      refine List.Perm.trans
        (List.Perm.append_left ([i] ++ t) (ih _ hnd')) ?_
      rw [hfe]
      have hshape : ([i] ++ t) ++
          is.filter (fun j => j ∉ (t.reverse ++ (i :: used))) =
          i :: (t ++ is.filter (fun j => j ∉ (t.reverse ++ (i :: used)))) := by
        simp
      rw [hshape]
      exact (hperm.cons i).symm

/-- Every cluster the outer scan emits is non-empty and a sublist of the
scanned index list. -/
theorem outerScan_clusters (sim : Nat → Nat → ℚ) (th : ℚ) (l : List Nat) :
    ∀ used : List Nat, l.Nodup →
      ∀ c ∈ outerScan sim th used l, c ≠ [] ∧ c.Sublist l := by
  induction l with
  | nil => intro used _ c hc; simp [outerScan] at hc
  | cons i is ih =>
    intro used hnd c hc
    obtain ⟨-, hnd'⟩ := List.nodup_cons.mp hnd
    by_cases hi : i ∈ used
    · rw [outerScan, if_pos hi] at hc
      obtain ⟨h1, h2⟩ := ih used hnd' c hc
      exact ⟨h1, h2.cons i⟩
    · obtain ⟨t, heq, hsub, -⟩ := innerScan_spec sim th is [i] (i :: used) hnd'
      rw [outerScan, if_neg hi] at hc
      dsimp only at hc
      rw [heq] at hc
      dsimp only at hc
      rcases List.mem_cons.mp hc with hc | hc
      · subst hc
        exact ⟨by simp, hsub.cons₂ i⟩
      · obtain ⟨h1, h2⟩ := ih _ hnd' c hc
        exact ⟨h1, h2.cons i⟩

/-- The heads of the clusters the outer scan emits form a sublist of the
scanned index list. -/
theorem outerScan_heads (sim : Nat → Nat → ℚ) (th : ℚ) (l : List Nat) :
    ∀ used : List Nat, l.Nodup →
      ((outerScan sim th used l).map (fun c => c.headD 0)).Sublist l := by
  induction l with
  | nil => intro used _; simp [outerScan]
  | cons i is ih =>
    intro used hnd
    obtain ⟨-, hnd'⟩ := List.nodup_cons.mp hnd
    by_cases hi : i ∈ used
    · rw [outerScan, if_pos hi]
      exact (ih used hnd').cons i
    · obtain ⟨t, heq, -, -⟩ := innerScan_spec sim th is [i] (i :: used) hnd'
      rw [outerScan, if_neg hi]
      dsimp only
      rw [heq]
      dsimp only
      rw [List.map_cons]
      exact (ih _ hnd').cons₂ i

/-- The index-level clustering covers each of the `n` indices exactly
once. -/
theorem clusterIdx_flatten_perm (sim : Nat → Nat → ℚ) (th : ℚ) (n : Nat) :
    List.Perm (clusterIdx sim th n).flatten (List.range n) := by
  unfold clusterIdx
  by_cases h0 : n = 0
  · subst h0; rfl
  · rw [if_neg h0]
    by_cases h1 : n = 1
    · subst h1; rfl
    · rw [if_neg h1]
      have := outerScan_flatten_perm sim th (List.range n) [] (List.nodup_range n)
      simpa using this

/-- Mapping positions back over the index range recovers the list. -/
theorem map_getD_range {α : Type} [Inhabited α] (l : List α) :
    (List.range l.length).map (fun i => l.getD i default) = l := by
  induction l with
  | nil => rfl
  | cons a as ih =>
    rw [List.length_cons, List.range_succ_eq_map, List.map_cons, List.map_map]
    refine congrArg (a :: ·) ?_
    rw [show ((fun i => (a :: as).getD i default) ∘ Nat.succ) =
        (fun i => as.getD i default) from funext (fun i => by
          simp [Function.comp, List.getD_cons_succ])]
    exact ih

/-- The clusters of the base clustering cover, up to permutation,
exactly the input batch. -/
theorem cluster_inputs_flatten_perm (sim : String → String → ℚ)
    (inputs : List InputItem) :
    List.Perm (cluster_inputs sim inputs).flatten inputs := by
  unfold cluster_inputs
  rw [← List.map_flatten]
  have hperm := clusterIdx_flatten_perm
    (fun i j => sim ((inputs.map (·.normalized_text)).getD i "")
      ((inputs.map (·.normalized_text)).getD j "")) SIMILARITY_THRESHOLD
    inputs.length
  have := hperm.map (fun i => inputs.getD i default)
  rw [map_getD_range] at this
  exact this

/-- C10: the base clustering partitions the batch preserving arrival
order: the concatenation of the returned groups is a permutation of the
inputs (each item placed exactly once), every group is non-empty, and
over an index-level decomposition the groups and their first elements
are strictly increasing in arrival order. -/
theorem cluster_inputs_partition (sim : String → String → ℚ)
    (inputs : List InputItem) :
    List.Perm (cluster_inputs sim inputs).flatten inputs ∧
    (∀ g ∈ cluster_inputs sim inputs, g ≠ []) ∧
    ∃ C : List (List Nat),
      cluster_inputs sim inputs =
        C.map (fun c => c.map (fun i => inputs.getD i default)) ∧
      List.Perm C.flatten (List.range inputs.length) ∧
      (∀ c ∈ C, c ≠ [] ∧ c.Sorted (· < ·)) ∧
      (C.map (fun c => c.headD 0)).Sorted (· < ·) := by
  classical
  set simN := fun i j => sim ((inputs.map (·.normalized_text)).getD i "")
    ((inputs.map (·.normalized_text)).getD j "") with hsimN
  have hrangesorted : (List.range inputs.length).Pairwise (· < ·) :=
    List.pairwise_lt_range _
  have hclusters : ∀ c ∈ clusterIdx simN SIMILARITY_THRESHOLD inputs.length,
      c ≠ [] ∧ c.Sublist (List.range inputs.length) := by
    intro c hc
    unfold clusterIdx at hc
    by_cases h0 : inputs.length = 0
    · rw [h0] at hc; simp at hc
    · rw [if_neg h0] at hc
      by_cases h1 : inputs.length = 1
      · rw [if_pos h1] at hc
        simp at hc
        subst hc
        refine ⟨by simp, ?_⟩
        rw [h1]
        simp
      · rw [if_neg h1] at hc
        exact outerScan_clusters simN SIMILARITY_THRESHOLD _ [] (List.nodup_range _) c hc
  have hheads : ((clusterIdx simN SIMILARITY_THRESHOLD inputs.length).map
      (fun c => c.headD 0)).Sublist (List.range inputs.length) := by
    unfold clusterIdx
    by_cases h0 : inputs.length = 0
    · rw [h0]; simp
    · rw [if_neg h0]
      by_cases h1 : inputs.length = 1
      · rw [if_pos h1, h1]
        simp
      · rw [if_neg h1]
        exact outerScan_heads simN SIMILARITY_THRESHOLD _ [] (List.nodup_range _)
  refine ⟨cluster_inputs_flatten_perm sim inputs, ?_, ?_⟩
  · intro g hg
    unfold cluster_inputs at hg
    obtain ⟨c, hc, hcg⟩ := List.mem_map.mp hg
    obtain ⟨hne, -⟩ := hclusters c hc
    intro hgnil
    apply hne
    rw [← hcg] at hgnil
    exact List.map_eq_nil_iff.mp hgnil
  · refine ⟨clusterIdx simN SIMILARITY_THRESHOLD inputs.length, rfl,
      clusterIdx_flatten_perm simN SIMILARITY_THRESHOLD inputs.length, ?_, ?_⟩
    · intro c hc
      obtain ⟨hne, hsub⟩ := hclusters c hc
      exact ⟨hne, hrangesorted.sublist hsub⟩
    · exact hrangesorted.sublist hheads

/-- A matching pass against one cluster splits the unassigned items into
the matched ones and the still-unassigned ones (as multisets). -/
theorem matchOne_unassigned (s : String → ℚ) (th : ℚ)
    (flags : List (InputItem × Bool)) :
    (↑(unassignedOf flags) : Multiset InputItem) =
      ↑(matchOne s th flags).2 + ↑(unassignedOf (matchOne s th flags).1) := by
  induction flags with
  | nil => simp [matchOne, unassignedOf]
  | cons xa rest ih =>
    obtain ⟨x, a⟩ := xa
    cases a
    · by_cases hm : th ≤ s x.normalized_text
      · have hstep : matchOne s th ((x, false) :: rest) =
            ((x, true) :: (matchOne s th rest).1, x :: (matchOne s th rest).2) := by
          simp [matchOne, hm]
        rw [hstep, unassignedOf_cons, unassignedOf_cons]
        simp only [if_neg Bool.false_ne_true, if_pos rfl, Bool.false_eq_true,
          if_false, if_true]
        rw [← Multiset.cons_coe, ← Multiset.cons_coe, Multiset.cons_add, ih]
      · have hstep : matchOne s th ((x, false) :: rest) =
            ((x, false) :: (matchOne s th rest).1, (matchOne s th rest).2) := by
          simp [matchOne, hm]
        rw [hstep, unassignedOf_cons, unassignedOf_cons]
        simp only [Bool.false_eq_true, if_false]
        rw [← Multiset.cons_coe, ← Multiset.cons_coe, Multiset.add_cons, ih]
    · have hstep : matchOne s th ((x, true) :: rest) =
          ((x, true) :: (matchOne s th rest).1, (matchOne s th rest).2) := by
        simp [matchOne]
      rw [hstep, unassignedOf_cons, unassignedOf_cons]
      simp only [if_true]
      exact ih

/-- `allItems` over a cons. -/
theorem allItems_cons (c : Cluster) (cs : List Cluster) :
    allItems (c :: cs) = c.items ++ allItems cs := by
  simp [allItems]

/-- `allItems` over an append. -/
theorem allItems_append (a b : List Cluster) :
    allItems (a ++ b) = allItems a ++ allItems b := by
  simp [allItems]

/-- The merge's main pass conserves items: previous items plus the
still-unassigned new items are invariant (as multisets). -/
theorem matchPass_conserving (sim : String → String → ℚ) (th : ℚ)
    (cs : List Cluster) :
    ∀ flags : List (InputItem × Bool),
      (↑(allItems (matchPass sim th flags cs).2) : Multiset ClusterItem) +
        ↑((unassignedOf (matchPass sim th flags cs).1).map toClusterItem) =
      ↑(allItems cs) + ↑((unassignedOf flags).map toClusterItem) := by
  induction cs with
  | nil => intro flags; simp [matchPass, allItems]
  | cons c cs ih =>
    intro flags
    have hc' : (if (matchOne (fun t => sim t (repText c)) th flags).2.isEmpty
          then c
          else updateCluster c (matchOne (fun t => sim t (repText c)) th flags).2).items =
        c.items ++
          (matchOne (fun t => sim t (repText c)) th flags).2.map toClusterItem := by
      by_cases he : (matchOne (fun t => sim t (repText c)) th flags).2.isEmpty
      · rw [if_pos he, List.isEmpty_iff.mp he]
        simp
      · rw [if_neg he]
        rfl
    have hunfold : matchPass sim th flags (c :: cs) =
        ((matchPass sim th (matchOne (fun t => sim t (repText c)) th flags).1 cs).1,
          (if (matchOne (fun t => sim t (repText c)) th flags).2.isEmpty
            then c
            else updateCluster c (matchOne (fun t => sim t (repText c)) th flags).2) ::
          (matchPass sim th (matchOne (fun t => sim t (repText c)) th flags).1 cs).2) :=
      rfl
    rw [hunfold]
    dsimp only
    rw [allItems_cons, hc', allItems_cons]
    have hone := matchOne_unassigned (fun t => sim t (repText c)) th flags
    have hone' : (↑((unassignedOf flags).map toClusterItem) : Multiset ClusterItem) =
        ↑((matchOne (fun t => sim t (repText c)) th flags).2.map toClusterItem) +
          ↑((unassignedOf
              (matchOne (fun t => sim t (repText c)) th flags).1).map toClusterItem) := by
      have hmapped := congrArg (Multiset.map toClusterItem) hone
      simpa [Multiset.map_coe] using hmapped
    rw [hone']
    have hih := ih (matchOne (fun t => sim t (repText c)) th flags).1
    simp only [← Multiset.coe_add] at hih ⊢
    rw [add_assoc, hih]
    abel

/-- The items of a freshly clustered batch are exactly the batch's item
dictionaries (as multisets). -/
theorem allItems_advanced (sim : String → String → ℚ) (inputs : List InputItem)
    (th : ℚ) :
    (↑(allItems (cluster_inputs_advanced sim inputs th)) : Multiset ClusterItem) =
      ↑(inputs.map toClusterItem) := by
  unfold allItems cluster_inputs_advanced
  rw [List.map_map]
  rw [show ((fun c : Cluster => c.items) ∘ (fun p : Nat × List InputItem =>
      ({ bucket_id := (p.1 : Int), items := p.2.map toClusterItem,
         item_count := p.2.length,
         input_types := (p.2.map
           (fun x => (some x.input_type : Option String))).eraseDups } : Cluster))) =
      (fun c : List InputItem => c.map toClusterItem) ∘ Prod.snd from rfl]
  rw [← List.map_map, List.enum_map_snd, ← List.map_flatten]
  exact Multiset.coe_eq_coe.mpr
    ((cluster_inputs_flatten_perm sim inputs).map toClusterItem)

/-- Re-numbering bucket ids does not touch the stored items. -/
theorem allItems_renumber (m : Int) (cs : List Cluster) :
    allItems (renumber m cs) = allItems cs := by
  unfold allItems renumber
  rw [List.map_map]
  rw [show ((fun c : Cluster => c.items) ∘ (fun p : Nat × Cluster =>
      { p.2 with bucket_id := m + 1 + (p.1 : Int) })) =
      (fun c : Cluster => c.items) ∘ Prod.snd from rfl]
  rw [← List.map_map, List.enum_map_snd]

/-- Before the pass, every new input is unassigned. -/
theorem unassignedOf_init (inputs : List InputItem) :
    unassignedOf (inputs.map (fun x => (x, false))) = inputs := by
  induction inputs with
  | nil => rfl
  | cons x xs ih => simp [List.map_cons, unassignedOf_cons, ih]

/-- C1: the history merge conserves items — the multiset of items across
the returned clusters is exactly the items of the previous clusters plus
the new inputs' item dictionaries: nothing is dropped, duplicated, or
placed in more than one cluster. -/
theorem merge_item_conserving (sim : String → String → ℚ) (th : ℚ)
    (inputs : List InputItem) (prev : List Cluster) :
    (↑(allItems (cluster_inputs_with_history sim inputs prev th)) :
        Multiset ClusterItem) =
      ↑(allItems prev) + ↑(inputs.map toClusterItem) := by
  unfold cluster_inputs_with_history
  by_cases hin : inputs.isEmpty
  · rw [if_pos hin, List.isEmpty_iff.mp hin]
    by_cases hp : prev.isEmpty
    · rw [if_pos hp, List.isEmpty_iff.mp hp]
      simp [allItems]
    · rw [if_neg hp]
      simp
  · rw [if_neg hin]
    by_cases hprev : prev.isEmpty
    · rw [if_pos hprev, List.isEmpty_iff.mp hprev]
      have := allItems_advanced sim inputs th
      simpa [allItems] using this
    · rw [if_neg hprev]
      dsimp only
      have hmp := matchPass_conserving sim th prev (inputs.map (fun x => (x, false)))
      rw [unassignedOf_init] at hmp
      by_cases hu : (unassignedOf
          (matchPass sim th (inputs.map (fun x => (x, false))) prev).1).isEmpty
      · rw [if_pos hu]
        rw [List.isEmpty_iff.mp hu] at hmp
        simpa using hmp
      · rw [if_neg hu]
        rw [allItems_append, allItems_renumber]
        have hadv := allItems_advanced sim
          (unassignedOf (matchPass sim th (inputs.map (fun x => (x, false))) prev).1) th
        simp only [← Multiset.coe_add] at hmp ⊢
        rw [hadv, hmp]

/-- Witness for C7: a raised transport fault. -/
theorem resolver_swallows_faults_witness :
    (analyze_and_resolve (fun _ => none) (.error ()) [⟨"text", "do it", ⟨none⟩⟩]
        []).2.2.2.1 = false ∧
    (analyze_and_resolve (fun _ => none) (.error ()) [⟨"text", "do it", ⟨none⟩⟩]
        []).2.2.2.2 = [] :=
  resolver_swallows_faults (fun _ => none) (.error ()) [⟨"text", "do it", ⟨none⟩⟩]
    [] (Or.inl ⟨(), rfl⟩)

end Omni
